import Mathlib

/-!
Verification development for the validator-registry state-transition core
(`crates/common/consensus/src/deneb/beacon_state.rs`).

The Rust code is shallowly embedded: `u64` values become `Nat`; where a claim is
about overflow the addition is taken modulo `2 ^ 64` (the semantics of a plain
release-build `+=`); a `u64` subtraction whose underflow a claim is about is
modelled as an `Option`; fallible operations (`anyhow::Result`) return `Except`;
fixed vectors and variable lists become `List` with `getD`/`set` indexing.
The external collaborators that are not part of the embedded file (the
cryptographic hash, the swap-or-not shuffle, and the protocol constants file)
are modelled from the spec, as marked on each definition.
-/

/-- Modelled from the spec: protocol constants from the missing
`fork_choice/helpers/constants.rs` (mainnet values; the spec pins
`C_h = 8192`, `C_r = 65536`, `C_s = 8192`). -/
def SLOTS_PER_EPOCH : Nat := 32

/-- Modelled from the spec: ring-buffer capacity `C_h` for block and state roots. -/
def SLOTS_PER_HISTORICAL_ROOT : Nat := 8192

/-- Modelled from the spec: RANDAO ring capacity `C_r`. -/
def EPOCHS_PER_HISTORICAL_VECTOR : Nat := 65536

/-- Modelled from the spec: slashings ring capacity `C_s`. -/
def EPOCHS_PER_SLASHINGS_VECTOR : Nat := 8192

/-- Modelled from the spec: the sentinel epoch of a validator that has not exited
(`u64::MAX`). -/
def FAR_FUTURE_EPOCH : Nat := 2 ^ 64 - 1

/-- Modelled from the spec: the genesis epoch. -/
def GENESIS_EPOCH : Nat := 0

/-- Modelled from the spec: seed lookahead used by `get_seed`. -/
def MIN_SEED_LOOKAHEAD : Nat := 1

/-- Modelled from the spec: lookahead of `compute_activation_exit_epoch`. -/
def MAX_SEED_LOOKAHEAD : Nat := 4

/-- Modelled from the spec: minimum validators allowed to exit per epoch. -/
def MIN_PER_EPOCH_CHURN_LIMIT : Nat := 4

/-- Modelled from the spec: divisor of the active count in the churn limit. -/
def CHURN_LIMIT_QUOTIENT : Nat := 65536

/-- Modelled from the spec: delay between exit and withdrawability. -/
def MIN_VALIDATOR_WITHDRAWABILITY_DELAY : Nat := 256

/-- Modelled from the spec: cap on effective balance, in Gwei. -/
def MAX_EFFECTIVE_BALANCE : Nat := 32000000000

/-- Modelled from the spec: effective balance granularity, in Gwei. -/
def EFFECTIVE_BALANCE_INCREMENT : Nat := 1000000000

/-- Modelled from the spec: largest value of the pseudorandom byte drawn by the
proposer sampling loop. -/
def MAX_RANDOM_BYTE : Nat := 255

/-- Modelled from the spec: divisor of the slashing penalty. -/
def MIN_SLASHING_PENALTY_QUOTIENT : Nat := 32

/-- Modelled from the spec: divisor of the whistleblower reward. -/
def WHISTLEBLOWER_REWARD_QUOTIENT : Nat := 512

/-- Modelled from the spec: proposer share numerator of the whistleblower reward. -/
def PROPOSER_WEIGHT : Nat := 8

/-- Modelled from the spec: weight denominator. -/
def WEIGHT_DENOMINATOR : Nat := 64

/-- Modelled from the spec: exact inclusion delay required by the timely-head flag. -/
def MIN_ATTESTATION_INCLUSION_DELAY : Nat := 1

/-- Modelled from the spec: finality-delay threshold of the inactivity leak. -/
def MIN_EPOCHS_TO_INACTIVITY_PENALTY : Nat := 4

/-- Modelled from the spec: bit position of the timely-source participation flag. -/
def TIMELY_SOURCE_FLAG_INDEX : Nat := 0

/-- Modelled from the spec: bit position of the timely-target participation flag. -/
def TIMELY_TARGET_FLAG_INDEX : Nat := 1

/-- Modelled from the spec: bit position of the timely-head participation flag. -/
def TIMELY_HEAD_FLAG_INDEX : Nat := 2

/-- Modelled from the spec: opaque domain tag for proposer selection. -/
def DOMAIN_BEACON_PROPOSER : Nat := 0

/-- Modelled from the spec: opaque domain tag for attester duties. -/
def DOMAIN_BEACON_ATTESTER : Nat := 1

/-- Modelled from the spec: a registry entry carries an effective balance, a
slashed flag and activation/exit/withdrawable epochs (spec section 3); the
fields not read by any embedded operation (pubkey, withdrawal credentials,
activation eligibility) are omitted.  `crate::validator::Validator` itself is
outside the embedded file. -/
structure Validator where
  effective_balance : Nat
  slashed : Bool
  activation_epoch : Nat
  exit_epoch : Nat
  withdrawable_epoch : Nat
deriving DecidableEq, Repr

/-- Default used for out-of-range `getD` reads; never reached under the length
hypotheses of the theorems below. -/
def defaultValidator : Validator :=
  { effective_balance := 0, slashed := false, activation_epoch := 0
    exit_epoch := 0, withdrawable_epoch := 0 }

/-- Modelled from the spec: a checkpoint is an epoch plus a root digest
(digests are opaque 32-byte values, modelled as `Nat`). -/
structure Checkpoint where
  epoch : Nat
  root : Nat
deriving DecidableEq, Repr

/-- Modelled from the spec: the attestation data consumed by
`get_attestation_participation_flag_indices` (slot, committee index, beacon
block root, source and target checkpoints). -/
structure AttestationData where
  slot : Nat
  index : Nat
  beacon_block_root : Nat
  source : Checkpoint
  target : Checkpoint
deriving DecidableEq, Repr

/-- The embedded `BeaconState` record: exactly the fields of the Rust struct
that are read or written by the embedded operations (slot, history ring,
registry, randomness ring, slashings ring, participation, finality
checkpoints); the remaining fields (genesis data, eth1 bridge, sync
committees, execution header, withdrawals, deep history) are opaque to every
claim and are omitted. -/
structure BeaconState where
  slot : Nat
  block_roots : List Nat
  validators : List Validator
  balances : List Nat
  randao_mixes : List Nat
  slashings : List Nat
  previous_epoch_participation : List Nat
  current_epoch_participation : List Nat
  previous_justified_checkpoint : Checkpoint
  current_justified_checkpoint : Checkpoint
  finalized_checkpoint : Checkpoint
deriving DecidableEq, Repr

/-- The typed failures of spec section 7 (the Rust code returns `anyhow`
string errors; the spec names the kinds). -/
inductive Err where
  | OutOfHistoryRange
  | EmptyIndexSet
  | InvalidEpoch
  | ValidatorNotFound
  | SourceMismatch
deriving DecidableEq, Repr

deriving instance DecidableEq for Except

/-- Modelled from the spec: the external collaborators of section 6, consumed
as pure functions.  `shuffledIndex i n seed` is `compute_shuffled_index`,
`hashByte seed q r` is byte `r` of `hash(seed ++ little_endian q)`, `seedOf`
and `seedHash` are the two fixed-output hash uses of `get_seed` and
`get_beacon_proposer_index`. -/
structure ExternalFns where
  shuffledIndex : Nat → Nat → Nat → Nat
  hashByte : Nat → Nat → Nat → Nat
  seedOf : Nat → Nat → Nat → Nat
  seedHash : Nat → Nat → Nat

/-- Modelled from the spec: the stated contract of the collaborators — the
shuffle returns a position below the count, and the drawn byte is a byte. -/
def ExternalFns.Good (f : ExternalFns) : Prop :=
  (∀ i n seed, 0 < n → f.shuffledIndex i n seed < n) ∧
  (∀ seed q r, f.hashByte seed q r ≤ MAX_RANDOM_BYTE)

/-- Modelled from the spec: `is_active_validator` from `crate::helpers`
(`activation_epoch ≤ epoch < exit_epoch`, spec section 6). -/
def is_active_validator (v : Validator) (epoch : Nat) : Bool :=
  v.activation_epoch ≤ epoch && epoch < v.exit_epoch

/-- Modelled from the spec: `compute_epoch_at_slot` from `crate::misc`
(`floor(slot / slots_per_epoch)`, spec section 4.1). -/
def compute_epoch_at_slot (slot : Nat) : Nat :=
  slot / SLOTS_PER_EPOCH

/-- Modelled from the spec: `compute_start_slot_at_epoch` from `crate::misc`
(the first slot of the epoch). -/
def compute_start_slot_at_epoch (epoch : Nat) : Nat :=
  epoch * SLOTS_PER_EPOCH

/-- Modelled from the spec: `compute_activation_exit_epoch` from `crate::misc`
(the earliest epoch a validator entering the exit queue at `epoch` can exit). -/
def compute_activation_exit_epoch (epoch : Nat) : Nat :=
  epoch + 1 + MAX_SEED_LOOKAHEAD

/-- Embeds `BeaconState::get_current_epoch`. -/
def get_current_epoch (s : BeaconState) : Nat :=
  compute_epoch_at_slot s.slot

/-- Embeds `BeaconState::get_previous_epoch`. -/
def get_previous_epoch (s : BeaconState) : Nat :=
  let current_epoch := get_current_epoch s
  if current_epoch = GENESIS_EPOCH then GENESIS_EPOCH else current_epoch - 1

/-- Embeds `BeaconState::get_block_root_at_slot`: the `ensure!` guard followed
by the ring-buffer read.  The guard computes `slot + SLOTS_PER_HISTORICAL_ROOT`
with a plain `u64` addition, modelled modulo `2 ^ 64` (the release-build wrap;
a debug build panics instead, and either way no slot in the top 8192 of the
`u64` range satisfies the guard). -/
def get_block_root_at_slot (s : BeaconState) (slot : Nat) : Except Err Nat :=
  if slot < s.slot ∧ s.slot ≤ (slot + SLOTS_PER_HISTORICAL_ROOT) % 2 ^ 64 then
    .ok (s.block_roots.getD (slot % SLOTS_PER_HISTORICAL_ROOT) 0)
  else
    .error .OutOfHistoryRange

/-- Embeds `BeaconState::get_block_root`. -/
def get_block_root (s : BeaconState) (epoch : Nat) : Except Err Nat :=
  get_block_root_at_slot s (compute_start_slot_at_epoch epoch)

/-- Embeds `BeaconState::get_randao_mix`. -/
def get_randao_mix (s : BeaconState) (epoch : Nat) : Nat :=
  s.randao_mixes.getD (epoch % EPOCHS_PER_HISTORICAL_VECTOR) 0

/-- Embeds `BeaconState::get_active_validator_indices`: the ordered indices whose
validator is active at `epoch` (the Rust `enumerate`/`filter_map` scan,
written as a filter over the index range). -/
def get_active_validator_indices (s : BeaconState) (epoch : Nat) : List Nat :=
  (List.range s.validators.length).filter
    (fun i => is_active_validator (s.validators.getD i defaultValidator) epoch)

/-- Embeds `BeaconState::get_validator_churn_limit`. -/
def get_validator_churn_limit (s : BeaconState) : Nat :=
  max MIN_PER_EPOCH_CHURN_LIMIT
    ((get_active_validator_indices s (get_current_epoch s)).length / CHURN_LIMIT_QUOTIENT)

/-- Embeds `BeaconState::get_seed`: the ring read plus the external hash. -/
def get_seed (f : ExternalFns) (s : BeaconState) (epoch : Nat) (domain_type : Nat) : Nat :=
  let mix := get_randao_mix s (epoch + EPOCHS_PER_HISTORICAL_VECTOR - MIN_SEED_LOOKAHEAD - 1)
  f.seedOf domain_type epoch mix

/-- The unbounded rejection-sampling loop of `compute_proposer_index`, with an
explicit fuel parameter standing for the number of iterations still allowed;
`none` means the loop did not accept within the fuel. -/
def compute_proposer_index_loop (f : ExternalFns) (s : BeaconState) (indices : List Nat)
    (seed : Nat) : Nat → Nat → Option Nat
  | 0, _ => none
  | fuel + 1, i =>
    let total := indices.length
    let candidate_index := indices.getD (f.shuffledIndex (i % total) total seed) 0
    let random_byte := f.hashByte seed (i / 32) (i % 32)
    let effective_balance :=
      (s.validators.getD candidate_index defaultValidator).effective_balance
    if MAX_EFFECTIVE_BALANCE * random_byte ≤ effective_balance * MAX_RANDOM_BYTE then
      some candidate_index
    else
      compute_proposer_index_loop f s indices seed fuel (i + 1)

/-- Embeds `BeaconState::compute_proposer_index`: the empty-input guard, then the
sampling loop.  The outer `Option` is the fuel bound of the loop; `some`
carries the Rust result. -/
def compute_proposer_index (f : ExternalFns) (s : BeaconState) (indices : List Nat)
    (seed : Nat) (fuel : Nat) : Option (Except Err Nat) :=
  if indices.isEmpty then some (.error .EmptyIndexSet)
  else (compute_proposer_index_loop f s indices seed fuel 0).map Except.ok

/-- Embeds `BeaconState::get_beacon_proposer_index`. -/
def get_beacon_proposer_index (f : ExternalFns) (s : BeaconState) (fuel : Nat) :
    Option (Except Err Nat) :=
  let epoch := get_current_epoch s
  let seed := f.seedHash (get_seed f s epoch DOMAIN_BEACON_PROPOSER) s.slot
  let indices := get_active_validator_indices s epoch
  compute_proposer_index f s indices seed fuel

/-- Embeds `BeaconState::increase_balance`: `get_mut` then a plain `u64`
`+=`, which wraps modulo `2 ^ 64` on overflow (release-build semantics); a
missing index is a silent no-op. -/
def increase_balance (s : BeaconState) (index delta : Nat) : BeaconState :=
  if index < s.balances.length then
    { s with balances :=
        s.balances.set index ((s.balances.getD index 0 + delta) % 2 ^ 64) }
  else s

/-- Embeds `BeaconState::decrease_balance`: the source computes
`balance.saturating_sub(delta)` but binds it to `_`, never writing it back, so
the state is returned unchanged; a missing index is likewise a no-op. -/
def decrease_balance (s : BeaconState) (index delta : Nat) : BeaconState :=
  if index < s.balances.length then
    let _discarded := s.balances.getD index 0 - delta
    s
  else s

/-- The `exit_epochs` maximum of `initiate_validator_exit`: the collected
finite exit epochs with `compute_activation_exit_epoch(current)` pushed, then
`iter().max().unwrap_or(0)` (the list is never empty). -/
def exit_queue_epoch_base (s : BeaconState) : Nat :=
  ((s.validators.filterMap
      (fun v => if v.exit_epoch ≠ FAR_FUTURE_EPOCH then some v.exit_epoch else none))
    ++ [compute_activation_exit_epoch (get_current_epoch s)]).foldl max 0

/-- The `exit_queue_churn` count of `initiate_validator_exit`. -/
def exit_queue_churn (s : BeaconState) : Nat :=
  s.validators.countP (fun v => v.exit_epoch == exit_queue_epoch_base s)

/-- The final `exit_queue_epoch` of `initiate_validator_exit`: the base epoch,
advanced by one when the queue at it already meets the churn limit. -/
def exit_queue_epoch_final (s : BeaconState) : Nat :=
  if get_validator_churn_limit s ≤ exit_queue_churn s then exit_queue_epoch_base s + 1
  else exit_queue_epoch_base s

/-- Embeds `BeaconState::initiate_validator_exit`. -/
def initiate_validator_exit (s : BeaconState) (index : Nat) : BeaconState :=
  if s.validators.length ≤ index then s
  else if (s.validators.getD index defaultValidator).exit_epoch ≠ FAR_FUTURE_EPOCH then s
  else
    let exit_queue_epoch := exit_queue_epoch_final s
    let v := s.validators.getD index defaultValidator
    let v' := { v with exit_epoch := exit_queue_epoch,
                       withdrawable_epoch :=
                         exit_queue_epoch + MIN_VALIDATOR_WITHDRAWABILITY_DELAY }
    { s with validators := s.validators.set index v' }

/-- The updated registry entry written by the active branch of
`initiate_validator_exit`. -/
def exitedValidator (s : BeaconState) (index : Nat) : Validator :=
  { s.validators.getD index defaultValidator with
      exit_epoch := exit_queue_epoch_final s,
      withdrawable_epoch :=
        exit_queue_epoch_final s + MIN_VALIDATOR_WITHDRAWABILITY_DELAY }

/-- Steps (1)-(4) of `BeaconState::slash_validator` on the registry entry `v`
found at `slashed_index`: initiate the exit, mark the entry slashed and extend
its withdrawable epoch, add the effective balance to the slashings ring (a
plain `u64` `+=`, wrapping modulo `2 ^ 64`), and apply the (result-discarding)
`decrease_balance`. -/
def slashIntermediate (s : BeaconState) (slashed_index : Nat) (v : Validator) :
    BeaconState :=
  let epoch := get_current_epoch s
  let s1 := initiate_validator_exit s slashed_index
  let v' := { v with slashed := true,
                     withdrawable_epoch :=
                       max v.withdrawable_epoch (epoch + EPOCHS_PER_SLASHINGS_VECTOR) }
  let s2 := { s1 with validators := s1.validators.set slashed_index v' }
  let slotIdx := epoch % EPOCHS_PER_SLASHINGS_VECTOR
  let newSlashings :=
    s2.slashings.set slotIdx ((s2.slashings.getD slotIdx 0 + v.effective_balance) % 2 ^ 64)
  let s3 := { s2 with slashings := newSlashings }
  decrease_balance s3 slashed_index (v.effective_balance / MIN_SLASHING_PENALTY_QUOTIENT)

/-- Embeds `BeaconState::slash_validator`: the `ValidatorNotFound` guard, the
registry/ring mutation (`slashIntermediate`), then the proposer and
whistleblower credits.  The outer `Option` propagates the fuel bound of the
proposer sampling loop. -/
def slash_validator (f : ExternalFns) (s : BeaconState) (fuel : Nat)
    (slashed_index : Nat) (whistleblower_index : Option Nat) :
    Option (Except Err BeaconState) :=
  match (initiate_validator_exit s slashed_index).validators.get? slashed_index with
  | none => some (.error .ValidatorNotFound)
  | some v =>
    match get_beacon_proposer_index f (slashIntermediate s slashed_index v) fuel with
    | none => none
    | some (.error e) => some (.error e)
    | some (.ok proposer_index) =>
      let whistleblower_index := whistleblower_index.getD proposer_index
      let whistleblower_reward := v.effective_balance / WHISTLEBLOWER_REWARD_QUOTIENT
      let proposer_reward := whistleblower_reward * PROPOSER_WEIGHT / WEIGHT_DENOMINATOR
      let s5 := increase_balance (slashIntermediate s slashed_index v)
          proposer_index proposer_reward
      let s6 := increase_balance s5 whistleblower_index
          (whistleblower_reward - proposer_reward)
      some (.ok s6)

/-- Embeds `BeaconState::add_flag` (`2 << flag_index`, as in the source). -/
def add_flag (flags flag_index : Nat) : Nat :=
  flags ||| (2 <<< flag_index)

/-- Embeds `BeaconState::has_flag` (`2 << flag_index`, as in the source). -/
def has_flag (flags flag_index : Nat) : Bool :=
  flags &&& (2 <<< flag_index) == 2 <<< flag_index

/-- Embeds `BeaconState::get_unslashed_participating_indices`: the epoch guard, the
record choice, the active scan, the flag filter and — as written in the
source — the filter that keeps validators whose `slashed` flag is `true`. -/
def get_unslashed_participating_indices (s : BeaconState) (flag_index : Nat)
    (epoch : Nat) : Except Err (List Nat) :=
  if epoch = get_previous_epoch s ∨ epoch = get_current_epoch s then
    let epoch_participation :=
      if epoch = get_current_epoch s then s.current_epoch_participation
      else s.previous_epoch_participation
    let active_validator_indices := get_active_validator_indices s epoch
    let participating_indices :=
      active_validator_indices.filter
        (fun i => has_flag (epoch_participation.getD i 0) flag_index)
    .ok (participating_indices.filter
        (fun i => (s.validators.getD i defaultValidator).slashed))
  else
    .error .InvalidEpoch

/-- Embeds `BeaconState::get_finality_delay`: the `u64` subtraction
`previous_epoch - finalized_checkpoint.epoch`; its underflow (a panic in
checked builds, a wrap otherwise) is modelled as `none`. -/
def get_finality_delay (s : BeaconState) : Option Nat :=
  if s.finalized_checkpoint.epoch ≤ get_previous_epoch s then
    some (get_previous_epoch s - s.finalized_checkpoint.epoch)
  else none

/-- Embeds `BeaconState::is_in_inactivity_leak`. -/
def is_in_inactivity_leak (s : BeaconState) : Option Bool :=
  (get_finality_delay s).map (fun d => decide (MIN_EPOCHS_TO_INACTIVITY_PENALTY < d))

/-- The `(x as f64).sqrt() as u64` of the source, which on the exactly
representable inputs used here is the integer floor square root; written as a
bounded scan so that it evaluates by kernel reduction (it is proved equal to
`Nat.sqrt` on `SLOTS_PER_EPOCH` below). -/
def floorSqrt (n : Nat) : Nat :=
  (List.range (n + 1)).foldl (fun acc k => if k * k ≤ n then max acc k else acc) 0

/-- The three `push` sites of `get_attestation_participation_flag_indices`:
the source flag is pushed when the delay is within `floor(sqrt(SLOTS_PER_EPOCH))`
(the Rust `f64` square root of 32 truncates to `Nat.sqrt 32`), the target flag
when matching and within an epoch, the head flag when matching and exactly at
`MIN_ATTESTATION_INCLUSION_DELAY`. -/
def participation_flag_list (inclusion_delay : Nat)
    (is_matching_target is_matching_head : Bool) : List Nat :=
  (if inclusion_delay ≤ floorSqrt SLOTS_PER_EPOCH then [TIMELY_SOURCE_FLAG_INDEX] else [])
  ++ (if is_matching_target = true ∧ inclusion_delay ≤ SLOTS_PER_EPOCH
      then [TIMELY_TARGET_FLAG_INDEX] else [])
  ++ (if is_matching_head = true ∧ inclusion_delay = MIN_ATTESTATION_INCLUSION_DELAY
      then [TIMELY_HEAD_FLAG_INDEX] else [])

/-- Embeds `BeaconState::get_attestation_participation_flag_indices`, mirroring the
short-circuit evaluation of the source: the `?` of `get_block_root` fires only
when the source checkpoint matches, the `?` of `get_block_root_at_slot` only
when additionally the target root matches; otherwise the `ensure!` rejects
with the SourceMismatch kind. -/
def get_attestation_participation_flag_indices (s : BeaconState)
    (data : AttestationData) (inclusion_delay : Nat) : Except Err (List Nat) :=
  let justified_checkpoint :=
    if data.target.epoch = get_current_epoch s then s.current_justified_checkpoint
    else s.previous_justified_checkpoint
  if data.source = justified_checkpoint then
    match get_block_root s data.target.epoch with
    | .error e => .error e
    | .ok target_root =>
      if data.target.root = target_root then
        match get_block_root_at_slot s data.slot with
        | .error e => .error e
        | .ok head_root =>
          .ok (participation_flag_list inclusion_delay true
                (decide (data.beacon_block_root = head_root)))
      else
        .ok (participation_flag_list inclusion_delay false false)
  else
    .error .SourceMismatch

/-- Count of validators of `s` whose exit epoch is exactly `f`. -/
def exitCount (s : BeaconState) (f : Nat) : Nat :=
  ((Finset.range s.validators.length).filter
    (fun i => (s.validators.getD i defaultValidator).exit_epoch = f)).card

/-- Count of validators that were still unexited in `s0` and carry exit epoch
`f` in `s`: the validators assigned `f` by the calls leading from `s0` to `s`. -/
def assignedExitCount (s0 s : BeaconState) (f : Nat) : Nat :=
  ((Finset.range s0.validators.length).filter
    (fun i => (s0.validators.getD i defaultValidator).exit_epoch = FAR_FUTURE_EPOCH ∧
              (s.validators.getD i defaultValidator).exit_epoch = f)).card

/-- Deterministic instantiation of the external collaborators used by
witnesses: the shuffle is the identity permutation and the drawn byte is 0,
so the sampling loop accepts its first candidate. -/
def sampleFns : ExternalFns :=
  { shuffledIndex := fun i n _ => i % n
    hashByte := fun _ _ _ => 0
    seedOf := fun _ _ _ => 0
    seedHash := fun _ _ => 0 }

/-- Adversarial instantiation of the external collaborators, still within
the stated contract: a valid shuffle together with a hash whose drawn byte
is always 255, so a zero-effective-balance candidate is rejected forever. -/
def rejectAllFns : ExternalFns :=
  { shuffledIndex := fun _ _ _ => 0
    hashByte := fun _ _ _ => 255
    seedOf := fun _ _ _ => 0
    seedHash := fun _ _ => 0 }

/-- A state with a single balance of 100 Gwei and no validators. -/
def c1State : BeaconState :=
  { slot := 0, block_roots := [], validators := [], balances := [100]
    randao_mixes := [], slashings := []
    previous_epoch_participation := [], current_epoch_participation := []
    previous_justified_checkpoint := ⟨0, 0⟩, current_justified_checkpoint := ⟨0, 0⟩
    finalized_checkpoint := ⟨0, 0⟩ }

/-- Two active validators of effective balance 1024 Gwei at epoch 10. -/
def c2State : BeaconState :=
  { slot := 320, block_roots := []
    validators := [⟨1024, false, 0, FAR_FUTURE_EPOCH, 0⟩, ⟨1024, false, 0, FAR_FUTURE_EPOCH, 0⟩]
    balances := [1000, 1000]
    randao_mixes := [], slashings := List.replicate 11 0
    previous_epoch_participation := [], current_epoch_participation := []
    previous_justified_checkpoint := ⟨0, 0⟩, current_justified_checkpoint := ⟨0, 0⟩
    finalized_checkpoint := ⟨0, 0⟩ }

/-- The state `c2State` reaches when validator 0 is slashed (computed by
evaluation, checked in the corresponding witness). -/
def c2Result : BeaconState :=
  { slot := 320, block_roots := []
    validators := [⟨1024, true, 0, 15, 8202⟩, ⟨1024, false, 0, FAR_FUTURE_EPOCH, 0⟩]
    balances := [1002, 1000]
    randao_mixes := [], slashings := (List.replicate 11 0).set 10 1024
    previous_epoch_participation := [], current_epoch_participation := []
    previous_justified_checkpoint := ⟨0, 0⟩, current_justified_checkpoint := ⟨0, 0⟩
    finalized_checkpoint := ⟨0, 0⟩ }

/-- One validator with effective balance 0; used to exhibit the non-accepting
run of the sampling loop. -/
def c3State : BeaconState :=
  { slot := 0, block_roots := []
    validators := [⟨0, false, 0, FAR_FUTURE_EPOCH, 0⟩]
    balances := [0]
    randao_mixes := [], slashings := []
    previous_epoch_participation := [], current_epoch_participation := []
    previous_justified_checkpoint := ⟨0, 0⟩, current_justified_checkpoint := ⟨0, 0⟩
    finalized_checkpoint := ⟨0, 0⟩ }

/-- One validator at the effective-balance cap; the loop accepts immediately. -/
def c3CapState : BeaconState :=
  { slot := 0, block_roots := []
    validators := [⟨MAX_EFFECTIVE_BALANCE, false, 0, FAR_FUTURE_EPOCH, 0⟩]
    balances := [0]
    randao_mixes := [], slashings := []
    previous_epoch_participation := [], current_epoch_participation := []
    previous_justified_checkpoint := ⟨0, 0⟩, current_justified_checkpoint := ⟨0, 0⟩
    finalized_checkpoint := ⟨0, 0⟩ }

/-- Five active validators at epoch 10, none exiting yet; the churn limit is
the floor value 4, so a burst of five exits must spill into a second epoch. -/
def c4State : BeaconState :=
  { slot := 320, block_roots := []
    validators := List.replicate 5 ⟨32000000000, false, 0, FAR_FUTURE_EPOCH, 0⟩
    balances := List.replicate 5 0
    randao_mixes := [], slashings := []
    previous_epoch_participation := [], current_epoch_participation := []
    previous_justified_checkpoint := ⟨0, 0⟩, current_justified_checkpoint := ⟨0, 0⟩
    finalized_checkpoint := ⟨0, 0⟩ }

/-- A validator already exiting (finite exit epoch 12). -/
def c5State : BeaconState :=
  { slot := 320, block_roots := []
    validators := [⟨1024, false, 0, 12, 268⟩]
    balances := [1000]
    randao_mixes := [], slashings := []
    previous_epoch_participation := [], current_epoch_participation := []
    previous_justified_checkpoint := ⟨0, 0⟩, current_justified_checkpoint := ⟨0, 0⟩
    finalized_checkpoint := ⟨0, 0⟩ }

/-- A state at slot 10 with four recorded block roots. -/
def c6State : BeaconState :=
  { slot := 10, block_roots := [9, 8, 7, 6]
    validators := [], balances := []
    randao_mixes := [], slashings := []
    previous_epoch_participation := [], current_epoch_participation := []
    previous_justified_checkpoint := ⟨0, 0⟩, current_justified_checkpoint := ⟨0, 0⟩
    finalized_checkpoint := ⟨0, 0⟩ }

/-- A state whose slot sits in the top 8192 of the `u64` range, where the
guard addition `slot + 8192` of `get_block_root_at_slot` wraps. -/
def c6WrapState : BeaconState :=
  { slot := 2 ^ 64 - 50, block_roots := []
    validators := [], balances := []
    randao_mixes := [], slashings := []
    previous_epoch_participation := [], current_epoch_participation := []
    previous_justified_checkpoint := ⟨0, 0⟩, current_justified_checkpoint := ⟨0, 0⟩
    finalized_checkpoint := ⟨0, 0⟩ }

/-- Two active validators at epoch 2, the first slashed, both participating
with every flag in the current epoch. -/
def c7State : BeaconState :=
  { slot := 64, block_roots := []
    validators := [⟨1024, true, 0, FAR_FUTURE_EPOCH, 0⟩, ⟨1024, false, 0, FAR_FUTURE_EPOCH, 0⟩]
    balances := [0, 0]
    randao_mixes := [], slashings := []
    previous_epoch_participation := [0, 0], current_epoch_participation := [255, 255]
    previous_justified_checkpoint := ⟨0, 0⟩, current_justified_checkpoint := ⟨0, 0⟩
    finalized_checkpoint := ⟨0, 0⟩ }

/-- A single balance at the `u64` maximum. -/
def c8State : BeaconState :=
  { slot := 0, block_roots := [], validators := [], balances := [2 ^ 64 - 1]
    randao_mixes := [], slashings := []
    previous_epoch_participation := [], current_epoch_participation := []
    previous_justified_checkpoint := ⟨0, 0⟩, current_justified_checkpoint := ⟨0, 0⟩
    finalized_checkpoint := ⟨0, 0⟩ }

/-- A state at slot 65 (current epoch 2) whose current justified checkpoint
is `(2, 77)`; with an empty root ring every ring read yields the default 0. -/
def c9State : BeaconState :=
  { slot := 65, block_roots := []
    validators := [], balances := []
    randao_mixes := [], slashings := []
    previous_epoch_participation := [], current_epoch_participation := []
    previous_justified_checkpoint := ⟨1, 55⟩, current_justified_checkpoint := ⟨2, 77⟩
    finalized_checkpoint := ⟨0, 0⟩ }

/-- An attestation matching source, target and head for `c9State`. -/
def c9Data : AttestationData :=
  { slot := 64, index := 0, beacon_block_root := 0, source := ⟨2, 77⟩, target := ⟨2, 0⟩ }

/-- A state at slot 320 (previous epoch 9) with finalized epoch 3. -/
def c10State : BeaconState :=
  { slot := 320, block_roots := []
    validators := [], balances := []
    randao_mixes := [], slashings := []
    previous_epoch_participation := [], current_epoch_participation := []
    previous_justified_checkpoint := ⟨0, 0⟩, current_justified_checkpoint := ⟨0, 0⟩
    finalized_checkpoint := ⟨3, 0⟩ }

/-- The invariant a burst of `initiate_validator_exit` calls maintains within
one epoch, relating the running state `s` to the starting state `s0`: the
slot, the registry length and the active set at the starting epoch are
unchanged, every exit epoch stays within the `u64` range, a validator already
exiting in `s0` keeps its exit epoch, and no epoch is the exit epoch of more
than `max (exitCount s0 g) (validator churn limit)` validators. -/
def ExitInv (s0 s : BeaconState) : Prop :=
  s.slot = s0.slot ∧
  s.validators.length = s0.validators.length ∧
  (∀ v ∈ s.validators, v.exit_epoch ≤ FAR_FUTURE_EPOCH) ∧
  (∀ i, i < s0.validators.length →
    is_active_validator (s.validators.getD i defaultValidator) (get_current_epoch s0) =
      is_active_validator (s0.validators.getD i defaultValidator) (get_current_epoch s0)) ∧
  (∀ i, i < s0.validators.length →
    (s0.validators.getD i defaultValidator).exit_epoch ≠ FAR_FUTURE_EPOCH →
    (s.validators.getD i defaultValidator).exit_epoch =
      (s0.validators.getD i defaultValidator).exit_epoch) ∧
  (∀ g, g ≠ FAR_FUTURE_EPOCH →
    exitCount s g ≤ max (exitCount s0 g) (get_validator_churn_limit s0))

theorem getD_set_self {α : Type} (l : List α) (i : Nat) (a d : α) (h : i < l.length) :
    (l.set i a).getD i d = a := by
  rw [List.getD_eq_getElem _ d (by simpa using h)]
  exact List.getElem_set_self (by simpa using h)

theorem getD_set_ne {α : Type} (l : List α) (i j : Nat) (a d : α) (h : i ≠ j) :
    (l.set i a).getD j d = l.getD j d := by
  by_cases hj : j < l.length
  · rw [List.getD_eq_getElem _ d (by simpa using hj), List.getD_eq_getElem _ d hj]
    exact List.getElem_set_ne h _
  · rw [List.getD_eq_default _ d (by simpa using Nat.le_of_not_lt hj),
      List.getD_eq_default _ d (Nat.le_of_not_lt hj)]

theorem getD_le_sum (l : List Nat) (i : Nat) : l.getD i 0 ≤ l.sum := by
  induction l generalizing i with
  | nil => simp [List.getD]
  | cons a t ih =>
    cases i with
    | zero => simp [List.getD_cons_zero, List.sum_cons]
    | succ n =>
      rw [List.getD_cons_succ, List.sum_cons]
      exact le_trans (ih n) (Nat.le_add_left _ _)

theorem sum_set (l : List Nat) (i v : Nat) (h : i < l.length) :
    (l.set i v).sum + l.getD i 0 = l.sum + v := by
  induction l generalizing i with
  | nil => simp at h
  | cons a t ih =>
    cases i with
    | zero => simp [List.getD_cons_zero, List.sum_cons]; omega
    | succ n =>
      have hn : n < t.length := by simpa using h
      have := ih n hn
      simp only [List.set_cons_succ, List.getD_cons_succ, List.sum_cons]
      omega

theorem getD_mem {α : Type} (l : List α) (i : Nat) (d : α) (h : i < l.length) :
    l.getD i d ∈ l := by
  rw [List.getD_eq_getElem _ d h]
  exact List.getElem_mem h

theorem le_foldl_max (l : List Nat) (a : Nat) : a ≤ l.foldl max a := by
  induction l generalizing a with
  | nil => simp
  | cons x t ih => exact le_trans (Nat.le_max_left a x) (ih (max a x))

theorem mem_le_foldl_max (l : List Nat) (a x : Nat) (hx : x ∈ l) : x ≤ l.foldl max a := by
  induction l generalizing a with
  | nil => cases hx
  | cons y t ih =>
    rcases List.mem_cons.mp hx with rfl | h
    · exact le_trans (Nat.le_max_right a x) (le_foldl_max t (max a x))
    · exact ih (max a y) h

theorem foldl_max_lt (l : List Nat) (a c : Nat) (ha : a < c) (hl : ∀ x ∈ l, x < c) :
    l.foldl max a < c := by
  induction l generalizing a with
  | nil => simpa
  | cons x t ih =>
    refine ih (max a x) ?_ (fun y hy => hl y (List.mem_cons_of_mem x hy))
    have hx : x < c := hl x (List.mem_cons_self x t)
    omega

/-- Counting with `countP` over a list equals the cardinality of the matching index set. -/
theorem countP_eq_card_filter_range {α : Type} (l : List α) (d : α) (p : α → Bool) :
    l.countP p = ((Finset.range l.length).filter (fun i => p (l.getD i d) = true)).card := by
  induction l using List.reverseRecOn with
  | nil => simp
  | append_singleton t a ih =>
    have hcongr :
        (Finset.range t.length).filter (fun i => p ((t ++ [a]).getD i d) = true) =
          (Finset.range t.length).filter (fun i => p (t.getD i d) = true) := by
      apply Finset.filter_congr
      intro i hi
      rw [List.getD_append _ _ _ _ (Finset.mem_range.mp hi)]
    have hlast : (t ++ [a]).getD t.length d = a := by
      rw [List.getD_append_right _ _ _ _ (le_refl _)]
      simp [List.getD_cons_zero]
    rw [List.countP_append, List.length_append]
    simp only [List.length_singleton]
    rw [Finset.range_succ, Finset.filter_insert, hlast]
    by_cases hpa : p a = true
    · rw [if_pos hpa,
        Finset.card_insert_of_not_mem
          (fun hmem => Finset.not_mem_range_self (Finset.mem_of_mem_filter _ hmem)),
        hcongr, ← ih]
      simp [List.countP_cons, hpa]
    · rw [if_neg hpa, hcongr, ← ih]
      simp [List.countP_cons, hpa]

/-- Replacing the truth value of a counted predicate at a single index shifts
the count of matching indices by exactly the two indicator values. -/
theorem card_filter_update (n i : Nat) (P Q : Nat → Prop)
    [DecidablePred P] [DecidablePred Q] (hi : i < n)
    (hagree : ∀ j, j ≠ i → (P j ↔ Q j)) :
    ((Finset.range n).filter Q).card + (if P i then 1 else 0) =
      ((Finset.range n).filter P).card + (if Q i then 1 else 0) := by
  classical
  have hmem : i ∈ Finset.range n := Finset.mem_range.mpr hi
  have hcard : ∀ (R : Nat → Prop) [DecidablePred R],
      ((Finset.range n).filter R).card =
        (∑ j ∈ (Finset.range n).erase i, if R j then 1 else 0) + (if R i then 1 else 0) := by
    intro R hR
    rw [Finset.card_filter, ← Finset.sum_erase_add _ _ hmem]
  have hsum :
      (∑ j ∈ (Finset.range n).erase i, if P j then 1 else 0) =
        (∑ j ∈ (Finset.range n).erase i, if Q j then 1 else 0) := by
    apply Finset.sum_congr rfl
    intro j hj
    have hji : j ≠ i := Finset.ne_of_mem_erase hj
    by_cases hpj : P j
    · rw [if_pos hpj, if_pos ((hagree j hji).mp hpj)]
    · rw [if_neg hpj, if_neg (fun hq => hpj ((hagree j hji).mpr hq))]
  rw [hcard P, hcard Q, hsum]
  omega

theorem decrease_balance_eq_self (s : BeaconState) (index delta : Nat) :
    decrease_balance s index delta = s := by
  unfold decrease_balance
  split <;> rfl

theorem increase_balance_proj (s : BeaconState) (index delta : Nat) :
    (increase_balance s index delta).slot = s.slot ∧
    (increase_balance s index delta).validators = s.validators ∧
    (increase_balance s index delta).slashings = s.slashings ∧
    (increase_balance s index delta).balances.length = s.balances.length := by
  unfold increase_balance
  split <;> simp

theorem increase_balance_out_of_range (s : BeaconState) (index delta : Nat)
    (h : s.balances.length ≤ index) : increase_balance s index delta = s := by
  unfold increase_balance
  rw [if_neg (by omega)]

theorem increase_balance_sum (s : BeaconState) (index delta : Nat)
    (hi : index < s.balances.length)
    (hov : s.balances.getD index 0 + delta < 2 ^ 64) :
    (increase_balance s index delta).balances.sum = s.balances.sum + delta := by
  unfold increase_balance
  rw [if_pos hi]
  show (s.balances.set index ((s.balances.getD index 0 + delta) % 2 ^ 64)).sum = _
  rw [Nat.mod_eq_of_lt hov]
  have hset := sum_set s.balances index (s.balances.getD index 0 + delta) hi
  omega

theorem initiate_validator_exit_noop (s : BeaconState) (index : Nat)
    (h : s.validators.length ≤ index ∨
         (index < s.validators.length ∧
          (s.validators.getD index defaultValidator).exit_epoch ≠ FAR_FUTURE_EPOCH)) :
    initiate_validator_exit s index = s := by
  unfold initiate_validator_exit
  rcases h with h | ⟨h1, h2⟩
  · rw [if_pos h]
  · rw [if_neg (by omega), if_pos h2]

theorem initiate_validator_exit_act (s : BeaconState) (index : Nat)
    (h1 : index < s.validators.length)
    (h2 : (s.validators.getD index defaultValidator).exit_epoch = FAR_FUTURE_EPOCH) :
    initiate_validator_exit s index =
      { s with validators := s.validators.set index (exitedValidator s index) } := by
  unfold initiate_validator_exit exitedValidator
  rw [if_neg (by omega), if_neg (not_not_intro h2)]

theorem initiate_validator_exit_proj (s : BeaconState) (index : Nat) :
    (initiate_validator_exit s index).slot = s.slot ∧
    (initiate_validator_exit s index).balances = s.balances ∧
    (initiate_validator_exit s index).slashings = s.slashings ∧
    (initiate_validator_exit s index).validators.length = s.validators.length := by
  unfold initiate_validator_exit
  split
  · exact ⟨rfl, rfl, rfl, rfl⟩
  · split
    · exact ⟨rfl, rfl, rfl, rfl⟩
    · simp

theorem initiate_validator_exit_effective_balance (s : BeaconState) (index j : Nat) :
    ((initiate_validator_exit s index).validators.getD j defaultValidator).effective_balance
      = (s.validators.getD j defaultValidator).effective_balance := by
  unfold initiate_validator_exit
  split
  · rfl
  · split
    · rfl
    · simp only []
      by_cases hj : index = j
      · subst hj
        rename_i h1 _
        rw [getD_set_self _ _ _ _ (by omega)]
      · rw [getD_set_ne _ _ _ _ _ hj]

/-- C1: the claim says `decrease_balance(i, delta)` stores the saturating
subtraction, reaching exactly 0 when `delta` exceeds the balance and never
leaving the balance unchanged; evaluating the embedded code at a balance of
100 shows the state is returned bit-identically for `delta = 30` and for
`delta = 200` (the source computes `balance.saturating_sub(delta)` and
discards it), contradicting the claim while matching the documented intent of
the function. -/
theorem c1_decrease_balance_is_a_no_op :
    decrease_balance c1State 0 30 = c1State ∧
    decrease_balance c1State 0 200 = c1State ∧
    c1State.balances.getD 0 0 = 100 := by
  refine ⟨decrease_balance_eq_self c1State 0 30, decrease_balance_eq_self c1State 0 200, ?_⟩
  decide

/-- C5: `initiate_validator_exit` is a no-op — the whole state is returned
unchanged — for every out-of-range index and for every index whose validator
already carries a finite (non-`FAR_FUTURE_EPOCH`) exit epoch, so a repeated
call leaves the exit and withdrawable epochs untouched. -/
theorem c5_initiate_validator_exit_idempotent (s : BeaconState) (index : Nat)
    (h : s.validators.length ≤ index ∨
         (index < s.validators.length ∧
          (s.validators.getD index defaultValidator).exit_epoch ≠ FAR_FUTURE_EPOCH)) :
    initiate_validator_exit s index = s :=
  initiate_validator_exit_noop s index h

/-- Witness for C5: a validator already exiting at epoch 12 is untouched, and
an out-of-range index is untouched. -/
theorem c5_witness :
    initiate_validator_exit c5State 0 = c5State ∧
    initiate_validator_exit c5State 3 = c5State := by
  constructor
  · exact c5_initiate_validator_exit_idempotent c5State 0 (Or.inr (by decide))
  · exact c5_initiate_validator_exit_idempotent c5State 3 (Or.inl (by decide))

/-- C6 counterexample: at state slot `2 ^ 64 - 50` the request for slot
`2 ^ 64 - 100` lies inside the mathematical window
`slot < current_slot AND current_slot <= slot + 8192` that the claim reads
over unbounded integers, yet the `u64` guard addition wraps
(`slot + 8192` becomes 8092) and the call fails with OutOfHistoryRange (in a
debug build the addition panics), refuting the exactly-when clause of the
claim as stated. -/
theorem c6_counterexample :
    get_block_root_at_slot c6WrapState (2 ^ 64 - 100) = .error .OutOfHistoryRange ∧
    (2 ^ 64 - 100 < c6WrapState.slot ∧
      c6WrapState.slot ≤ (2 ^ 64 - 100) + 8192) := by
  decide

/-- C6 (amended): `get_block_root_at_slot(slot)` fails with OutOfHistoryRange
exactly when `slot < current_slot AND current_slot <= (slot + 8192) mod 2^64`
does not hold — the bound is the `u64` wrapping addition of the source — and
otherwise returns the ring-buffer entry at index `slot mod 8192`; whenever
`slot + 8192 < 2 ^ 64`, that is for every slot below the top 8192 of the
`u64` range, this coincides with the claim as stated. -/
theorem c6_get_block_root_at_slot_window (s : BeaconState) (slot : Nat) :
    (get_block_root_at_slot s slot = .error .OutOfHistoryRange ↔
      ¬ (slot < s.slot ∧ s.slot ≤ (slot + 8192) % 2 ^ 64)) ∧
    (∀ r, get_block_root_at_slot s slot = .ok r →
      r = s.block_roots.getD (slot % 8192) 0) ∧
    (slot + 8192 < 2 ^ 64 →
      (get_block_root_at_slot s slot = .error .OutOfHistoryRange ↔
        ¬ (slot < s.slot ∧ s.slot ≤ slot + 8192))) := by
  unfold get_block_root_at_slot
  have h8192 : SLOTS_PER_HISTORICAL_ROOT = 8192 := rfl
  rw [h8192]
  refine ⟨?_, ?_, ?_⟩
  · by_cases h : slot < s.slot ∧ s.slot ≤ (slot + 8192) % 2 ^ 64
    · rw [if_pos h]
      constructor
      · intro hc; cases hc
      · intro hc; exact absurd h hc
    · rw [if_neg h]
      constructor
      · intro _; exact h
      · intro _; rfl
  · intro r hr
    by_cases h : slot < s.slot ∧ s.slot ≤ (slot + 8192) % 2 ^ 64
    · rw [if_pos h] at hr
      exact (Except.ok.inj hr).symm
    · rw [if_neg h] at hr
      cases hr
  · intro hov
    rw [Nat.mod_eq_of_lt hov]
    by_cases h : slot < s.slot ∧ s.slot ≤ slot + 8192
    · rw [if_pos h]
      exact ⟨fun hc => (by cases hc), fun hc => absurd h hc⟩
    · rw [if_neg h]
      exact ⟨fun _ => h, fun _ => rfl⟩

/-- Witness for C6 (amended): at current slot 10, slot 3 is in the window and
returns ring entry 6; slot 10 itself is rejected, under both the wrapped
bound and — since `10 + 8192` does not overflow — the bound of the claim as
stated. -/
theorem c6_witness :
    (6 : Nat) = c6State.block_roots.getD (3 % 8192) 0 ∧
    (get_block_root_at_slot c6State 10 = .error .OutOfHistoryRange ↔
      ¬ (10 < c6State.slot ∧ c6State.slot ≤ (10 + 8192) % 2 ^ 64)) ∧
    (get_block_root_at_slot c6State 10 = .error .OutOfHistoryRange ↔
      ¬ (10 < c6State.slot ∧ c6State.slot ≤ 10 + 8192)) := by
  refine ⟨(c6_get_block_root_at_slot_window c6State 3).2.1 6 (by decide),
    (c6_get_block_root_at_slot_window c6State 10).1,
    (c6_get_block_root_at_slot_window c6State 10).2.2 (by decide)⟩

/-- C8 counterexample: the claim says the addition of `increase_balance` is
checked and cannot silently overflow, but the source uses a plain `u64` `+=`;
at the `u64` maximum the balance silently wraps to 0. -/
theorem c8_counterexample :
    (increase_balance c8State 0 1).balances.getD 0 0 = 0 ∧
    c8State.balances.getD 0 0 = 2 ^ 64 - 1 := by
  decide

/-- C8 (amended): `increase_balance(index, delta)` performs a plain `u64`
addition on the balance at `index`, wrapping modulo `2 ^ 64` on overflow
(the addition is not checked and a release-build overflow is silent), leaves
every other balance untouched, and is a no-op — not an error — for every
out-of-range index, leaving the whole state unchanged. -/
theorem c8_increase_balance_amended (s : BeaconState) (index delta : Nat) :
    (s.balances.length ≤ index → increase_balance s index delta = s) ∧
    (index < s.balances.length →
      (increase_balance s index delta).balances.getD index 0 =
        (s.balances.getD index 0 + delta) % 2 ^ 64 ∧
      (∀ j, j ≠ index → (increase_balance s index delta).balances.getD j 0 =
        s.balances.getD j 0)) := by
  constructor
  · exact increase_balance_out_of_range s index delta
  · intro hi
    unfold increase_balance
    rw [if_pos hi]
    constructor
    · exact getD_set_self _ _ _ _ hi
    · intro j hj
      exact getD_set_ne _ _ _ _ _ (fun hij => hj hij.symm)

/-- Witness for C8 (amended): a balance of 100 is increased by 30 in place,
a neighbour balance is untouched, and an out-of-range index is a no-op. -/
theorem c8_witness :
    (increase_balance c2State 0 30).balances.getD 0 0 =
      (c2State.balances.getD 0 0 + 30) % 2 ^ 64 ∧
    (increase_balance c2State 0 30).balances.getD 1 0 = c2State.balances.getD 1 0 ∧
    increase_balance c2State 5 30 = c2State := by
  refine ⟨((c8_increase_balance_amended c2State 0 30).2 (by decide)).1,
    ((c8_increase_balance_amended c2State 0 30).2 (by decide)).2 1 (by decide),
    (c8_increase_balance_amended c2State 5 30).1 (by decide)⟩

/-- C10: `get_finality_delay` is the `u64` subtraction
`previous_epoch - finalized_checkpoint.epoch`; it is well defined — and equals
the mathematical difference — exactly under the precondition
`finalized_checkpoint.epoch ≤ previous_epoch`, underflows otherwise, and
`is_in_inactivity_leak` is defined only under the same precondition. -/
theorem c10_get_finality_delay_precondition (s : BeaconState) :
    (s.finalized_checkpoint.epoch ≤ get_previous_epoch s →
      get_finality_delay s = some (get_previous_epoch s - s.finalized_checkpoint.epoch)) ∧
    (get_previous_epoch s < s.finalized_checkpoint.epoch → get_finality_delay s = none) ∧
    (∀ b, is_in_inactivity_leak s = some b →
      s.finalized_checkpoint.epoch ≤ get_previous_epoch s) := by
  refine ⟨?_, ?_, ?_⟩
  · intro h; unfold get_finality_delay; rw [if_pos h]
  · intro h; unfold get_finality_delay; rw [if_neg (by omega)]
  · intro b hb
    unfold is_in_inactivity_leak get_finality_delay at hb
    by_cases h : s.finalized_checkpoint.epoch ≤ get_previous_epoch s
    · exact h
    · rw [if_neg h] at hb; cases hb

/-- Witness for C10: with previous epoch 9 and finalized epoch 3 the delay is
6; with finalized epoch 10 the subtraction underflows. -/
theorem c10_witness :
    get_finality_delay c10State = some (get_previous_epoch c10State - 3) ∧
    get_finality_delay { c10State with finalized_checkpoint := ⟨10, 0⟩ } = none := by
  constructor
  · exact (c10_get_finality_delay_precondition c10State).1 (by decide)
  · exact (c10_get_finality_delay_precondition
      { c10State with finalized_checkpoint := ⟨10, 0⟩ }).2.1 (by decide)

theorem compute_proposer_index_loop_mem (f : ExternalFns) (s : BeaconState)
    (indices : List Nat) (seed : Nat) (hf : f.Good) (hne : 0 < indices.length) :
    ∀ fuel i c, compute_proposer_index_loop f s indices seed fuel i = some c →
      c ∈ indices := by
  intro fuel
  induction fuel with
  | zero => intro i c h; cases h
  | succ n ih =>
    intro i c h
    simp only [compute_proposer_index_loop] at h
    split at h
    · have hc := Option.some.inj h
      rw [← hc]
      exact getD_mem _ _ _ (hf.1 _ _ _ hne)
    · exact ih (i + 1) c h

theorem c3_counterexample_loop : ∀ fuel i,
    compute_proposer_index_loop rejectAllFns c3State [0] 7 fuel i = none := by
  intro fuel
  induction fuel with
  | zero => intro i; rfl
  | succ n ih =>
    intro i
    simp only [compute_proposer_index_loop, rejectAllFns, c3State]
    rw [if_neg (by decide)]
    exact ih (i + 1)

theorem c3_no_fuel_suffices :
    ∀ fuel, compute_proposer_index rejectAllFns c3State [0] 7 fuel = none := by
  intro fuel
  unfold compute_proposer_index
  rw [if_neg (by decide), c3_counterexample_loop fuel 0]
  rfl

/-- C3 counterexample: the claim asserts the proposer draw over a singleton
list terminates (and returns its element) for every seed, but the sampling
loop of the source never accepts a candidate of effective balance 0 when
every drawn byte is 255 — an instantiation allowed by the stated collaborator
contract — so at this concrete input the loop runs forever: no iteration
bound ever produces a result, refuting the termination clause. -/
theorem c3_counterexample :
    (∃ fuel r, compute_proposer_index rejectAllFns c3State [0] 7 fuel = some (.ok r))
      = False :=
  eq_false (fun hex => by
    obtain ⟨fuel, r, hr⟩ := hex
    rw [c3_no_fuel_suffices fuel] at hr
    cases hr)

/-- C3 (amended): `compute_proposer_index` fails with EmptyIndexSet on an
empty index list; it is a pure function of its inputs (identical inputs give
identical outputs); whenever a run over a singleton list `[j]` returns
successfully, the result is `j`, and it does return `j` in one iteration
whenever the effective balance of validator `j` is at least
`MAX_EFFECTIVE_BALANCE`; termination for every seed, however, is not
guaranteed — the rejection loop is unbounded (see the counterexample), only
almost-surely terminating. -/
theorem c3_compute_proposer_index_amended :
    (∀ f s seed fuel, compute_proposer_index f s [] seed fuel =
      some (.error .EmptyIndexSet)) ∧
    (∀ (f : ExternalFns) (s : BeaconState) (indices : List Nat) (seed fuel : Nat),
      compute_proposer_index f s indices seed fuel =
        compute_proposer_index f s indices seed fuel) ∧
    (∀ f s j seed fuel r, ExternalFns.Good f →
      compute_proposer_index f s [j] seed fuel = some (.ok r) → r = j) ∧
    (∀ f s j seed fuel, ExternalFns.Good f →
      MAX_EFFECTIVE_BALANCE ≤ (s.validators.getD j defaultValidator).effective_balance →
      0 < fuel → compute_proposer_index f s [j] seed fuel = some (.ok j)) := by
  refine ⟨fun f s seed fuel => rfl, fun f s indices seed fuel => rfl, ?_, ?_⟩
  · intro f s j seed fuel r hf h
    unfold compute_proposer_index at h
    rw [if_neg (by simp)] at h
    obtain ⟨c, hc, hcr⟩ := Option.map_eq_some'.mp h
    have hmem := compute_proposer_index_loop_mem f s [j] seed hf (by simp) fuel 0 c hc
    have : c = j := List.mem_singleton.mp hmem
    have : Except.ok c = Except.ok r := hcr
    cases this
    exact List.mem_singleton.mp hmem
  · intro f s j seed fuel hf heb hfuel
    obtain ⟨m, rfl⟩ : ∃ m, fuel = m + 1 := ⟨fuel - 1, by omega⟩
    unfold compute_proposer_index
    rw [if_neg (by simp)]
    have hsh : f.shuffledIndex (0 % [j].length) [j].length seed = 0 := by
      have := hf.1 (0 % [j].length) [j].length seed (by simp)
      simpa using this
    have hrb := hf.2 seed (0 / 32) (0 % 32)
    simp only [compute_proposer_index_loop, hsh]
    rw [if_pos ?accept]
    · rfl
    case accept =>
      calc MAX_EFFECTIVE_BALANCE * f.hashByte seed (0 / 32) (0 % 32)
          ≤ MAX_EFFECTIVE_BALANCE * MAX_RANDOM_BYTE := Nat.mul_le_mul_left _ hrb
        _ ≤ (s.validators.getD ([j].getD 0 0) defaultValidator).effective_balance
              * MAX_RANDOM_BYTE := by
            simp only [List.getD_cons_zero]
            exact Nat.mul_le_mul_right _ heb

/-- Witness for C3 (amended): with an in-contract shuffle and hash and a
validator at the effective-balance cap, the draw over `[0]` returns 0. -/
theorem c3_witness :
    compute_proposer_index sampleFns c3CapState [0] 7 1 = some (.ok 0) := by
  refine c3_compute_proposer_index_amended.2.2.2 sampleFns c3CapState 0 7 1
    ⟨?_, ?_⟩ (by decide) (by decide)
  · intro i n seed h
    simpa [sampleFns] using Nat.mod_lt i h
  · intro seed q r
    simp [sampleFns, MAX_RANDOM_BYTE]

/-- C7: `get_unslashed_participating_indices(flag, epoch)` fails with
InvalidEpoch exactly when `epoch` is neither the previous nor the current
epoch; on success the returned collection holds exactly the indices that are
active at `epoch`, have the flag set in the participation record of that
epoch, and pass the slashed-status filter as written in the source (the
validator is currently flagged slashed). -/
theorem c7_get_unslashed_participating_indices_spec (s : BeaconState)
    (flag epoch : Nat) :
    (get_unslashed_participating_indices s flag epoch = .error .InvalidEpoch ↔
      (epoch ≠ get_previous_epoch s ∧ epoch ≠ get_current_epoch s)) ∧
    (∀ r, get_unslashed_participating_indices s flag epoch = .ok r →
      ∀ i, i ∈ r ↔
        (i < s.validators.length ∧
         is_active_validator (s.validators.getD i defaultValidator) epoch = true ∧
         has_flag ((if epoch = get_current_epoch s then s.current_epoch_participation
                    else s.previous_epoch_participation).getD i 0) flag = true ∧
         (s.validators.getD i defaultValidator).slashed = true)) := by
  unfold get_unslashed_participating_indices
  by_cases h : epoch = get_previous_epoch s ∨ epoch = get_current_epoch s
  · rw [if_pos h]
    constructor
    · constructor
      · intro hc; cases hc
      · intro hc
        rcases h with h | h
        · exact absurd h hc.1
        · exact absurd h hc.2
    · intro r hr i
      rw [← Except.ok.inj hr]
      simp only [List.mem_filter, get_active_validator_indices, List.mem_range]
      constructor
      · rintro ⟨⟨⟨hi, hact⟩, hflag⟩, hsl⟩
        exact ⟨hi, hact, hflag, hsl⟩
      · rintro ⟨hi, hact, hflag, hsl⟩
        exact ⟨⟨⟨hi, hact⟩, hflag⟩, hsl⟩
  · rw [if_neg h]
    push_neg at h
    constructor
    · exact iff_of_true rfl h
    · intro r hr; cases hr

/-- Witness for C7: at current epoch 2 the query succeeds and index 0 — the
slashed, active, participating validator — satisfies the membership
characterization; epoch 0 is rejected as InvalidEpoch. -/
theorem c7_witness :
    ((0 : Nat) ∈ [0] ↔
      (0 < c7State.validators.length ∧
       is_active_validator (c7State.validators.getD 0 defaultValidator) 2 = true ∧
       has_flag ((if (2 : Nat) = get_current_epoch c7State
                  then c7State.current_epoch_participation
                  else c7State.previous_epoch_participation).getD 0 0) 1 = true ∧
       (c7State.validators.getD 0 defaultValidator).slashed = true)) ∧
    (get_unslashed_participating_indices c7State 1 0 = .error .InvalidEpoch ↔
      ((0 : Nat) ≠ get_previous_epoch c7State ∧ (0 : Nat) ≠ get_current_epoch c7State)) := by
  constructor
  · exact (c7_get_unslashed_participating_indices_spec c7State 1 2).2 [0] (by decide) 0
  · exact (c7_get_unslashed_participating_indices_spec c7State 1 0).1

theorem nat_sqrt_eq_floorSqrt_spe : Nat.sqrt SLOTS_PER_EPOCH = floorSqrt SLOTS_PER_EPOCH := by
  have h5 : floorSqrt SLOTS_PER_EPOCH = 5 := by decide
  have h5' : (5 : Nat) = Nat.sqrt SLOTS_PER_EPOCH := by
    rw [Nat.eq_sqrt]
    constructor <;> norm_num [SLOTS_PER_EPOCH]
  omega

theorem mem_participation_flag_list (delay : Nat) (mt mh : Bool) :
    (TIMELY_SOURCE_FLAG_INDEX ∈ participation_flag_list delay mt mh ↔
      delay ≤ floorSqrt SLOTS_PER_EPOCH) ∧
    (TIMELY_TARGET_FLAG_INDEX ∈ participation_flag_list delay mt mh ↔
      (mt = true ∧ delay ≤ SLOTS_PER_EPOCH)) ∧
    (TIMELY_HEAD_FLAG_INDEX ∈ participation_flag_list delay mt mh ↔
      (mh = true ∧ delay = MIN_ATTESTATION_INCLUSION_DELAY)) := by
  unfold participation_flag_list
  refine ⟨?_, ?_, ?_⟩ <;>
    · split_ifs with h1 h2 h3 <;>
        simp_all [TIMELY_SOURCE_FLAG_INDEX, TIMELY_TARGET_FLAG_INDEX, TIMELY_HEAD_FLAG_INDEX]

/-- C9: `get_attestation_participation_flag_indices(data, inclusion_delay)`
fails with SourceMismatch whenever the source checkpoint differs from the
relevant justified checkpoint (current when the target epoch is the current
epoch, previous otherwise); on every success the result contains the
timely-source flag iff `inclusion_delay ≤ floor(sqrt(SLOTS_PER_EPOCH))`, the
timely-target flag iff the target root equals the historical block root at
the target epoch and `inclusion_delay ≤ SLOTS_PER_EPOCH`, and the timely-head
flag iff additionally the attestation block root equals the block root at the
attestation slot and `inclusion_delay` is exactly
`MIN_ATTESTATION_INCLUSION_DELAY`. -/
theorem c9_attestation_flag_indices_spec (s : BeaconState) (data : AttestationData)
    (delay : Nat) :
    (data.source ≠ (if data.target.epoch = get_current_epoch s
        then s.current_justified_checkpoint else s.previous_justified_checkpoint) →
      get_attestation_participation_flag_indices s data delay = .error .SourceMismatch) ∧
    (∀ flags, get_attestation_participation_flag_indices s data delay = .ok flags →
      ((TIMELY_SOURCE_FLAG_INDEX ∈ flags ↔ delay ≤ Nat.sqrt SLOTS_PER_EPOCH) ∧
       (∃ tr, get_block_root s data.target.epoch = .ok tr ∧
         ((TIMELY_TARGET_FLAG_INDEX ∈ flags ↔
            (data.target.root = tr ∧ delay ≤ SLOTS_PER_EPOCH)) ∧
          (TIMELY_HEAD_FLAG_INDEX ∈ flags ↔
            (data.target.root = tr ∧
             (∃ hr, get_block_root_at_slot s data.slot = .ok hr ∧
                data.beacon_block_root = hr) ∧
             delay = MIN_ATTESTATION_INCLUSION_DELAY)))))) := by
  rw [nat_sqrt_eq_floorSqrt_spe]
  unfold get_attestation_participation_flag_indices
  by_cases hsrc : data.source = (if data.target.epoch = get_current_epoch s
      then s.current_justified_checkpoint else s.previous_justified_checkpoint)
  · rw [if_pos hsrc]
    refine ⟨fun hc => absurd hsrc hc, ?_⟩
    intro flags hf
    split at hf
    · cases hf
    · rename_i tr htr
      split at hf
      · rename_i hmt
        split at hf
        · cases hf
        · rename_i hr hhr
          refine ⟨?_, tr, htr, ?_, ?_⟩
          · rw [← Except.ok.inj hf]
            exact (mem_participation_flag_list delay true _).1
          · rw [← Except.ok.inj hf, (mem_participation_flag_list delay true _).2.1]
            simp [hmt]
          · rw [← Except.ok.inj hf, (mem_participation_flag_list delay true _).2.2]
            constructor
            · rintro ⟨hbr, hd⟩
              exact ⟨hmt, ⟨hr, hhr, of_decide_eq_true hbr⟩, hd⟩
            · rintro ⟨_, ⟨hr', hhr', hbr⟩, hd⟩
              refine ⟨decide_eq_true ?_, hd⟩
              rw [hhr] at hhr'
              rw [hbr, Except.ok.inj hhr']
      · rename_i hmt
        refine ⟨?_, tr, htr, ?_, ?_⟩
        · rw [← Except.ok.inj hf]
          exact (mem_participation_flag_list delay false false).1
        · rw [← Except.ok.inj hf, (mem_participation_flag_list delay false false).2.1]
          simp [hmt]
        · rw [← Except.ok.inj hf, (mem_participation_flag_list delay false false).2.2]
          simp [hmt]
  · rw [if_neg hsrc]
    exact ⟨fun _ => rfl, fun flags hf => by cases hf⟩

/-- Witness for C9: at slot 65 with a matching source, target and head and
inclusion delay 1, the call succeeds with `[0, 1, 2]` and all three
membership characterizations hold; flipping the source root yields
SourceMismatch. -/
theorem c9_witness :
    ((TIMELY_SOURCE_FLAG_INDEX ∈ [0, 1, 2] ↔ (1 : Nat) ≤ Nat.sqrt SLOTS_PER_EPOCH)) ∧
    get_attestation_participation_flag_indices c9State
      { c9Data with source := ⟨2, 78⟩ } 1 = .error .SourceMismatch := by
  constructor
  · exact (((c9_attestation_flag_indices_spec c9State c9Data 1).2 [0, 1, 2] (by decide)).1)
  · exact (c9_attestation_flag_indices_spec c9State { c9Data with source := ⟨2, 78⟩ } 1).1
      (by decide)

theorem proposer_reward_le (wr : Nat) : wr * PROPOSER_WEIGHT / WEIGHT_DENOMINATOR ≤ wr := by
  have h : wr * PROPOSER_WEIGHT ≤ wr * WEIGHT_DENOMINATOR :=
    Nat.mul_le_mul_left wr (by norm_num [PROPOSER_WEIGHT, WEIGHT_DENOMINATOR])
  calc wr * PROPOSER_WEIGHT / WEIGHT_DENOMINATOR
      ≤ wr * WEIGHT_DENOMINATOR / WEIGHT_DENOMINATOR := Nat.div_le_div_right h
    _ = wr := Nat.mul_div_cancel wr (by norm_num [WEIGHT_DENOMINATOR])

theorem mem_active_indices_lt (s : BeaconState) (epoch i : Nat)
    (h : i ∈ get_active_validator_indices s epoch) : i < s.validators.length := by
  unfold get_active_validator_indices at h
  exact List.mem_range.mp (List.mem_filter.mp h).1

theorem compute_proposer_index_ok_mem (f : ExternalFns) (s : BeaconState)
    (indices : List Nat) (seed fuel p : Nat) (hf : f.Good)
    (h : compute_proposer_index f s indices seed fuel = some (.ok p)) : p ∈ indices := by
  unfold compute_proposer_index at h
  by_cases hemp : indices.isEmpty
  · rw [if_pos hemp] at h
    simp at h
  · rw [if_neg hemp] at h
    obtain ⟨c, hc, hcr⟩ := Option.map_eq_some'.mp h
    have hcp : c = p := Except.ok.inj hcr
    subst hcp
    have hne : 0 < indices.length := by
      cases indices with
      | nil => simp at hemp
      | cons a t => simp
    exact compute_proposer_index_loop_mem f s indices seed hf hne fuel 0 c hc

theorem get_beacon_proposer_index_lt (f : ExternalFns) (s : BeaconState)
    (fuel p : Nat) (hf : f.Good)
    (h : get_beacon_proposer_index f s fuel = some (.ok p)) :
    p < s.validators.length := by
  unfold get_beacon_proposer_index at h
  exact mem_active_indices_lt s _ p (compute_proposer_index_ok_mem f s _ _ fuel p hf h)

theorem slashIntermediate_spec (s : BeaconState) (idx : Nat) (v : Validator)
    (hidx : idx < s.validators.length) :
    (slashIntermediate s idx v).slot = s.slot ∧
    (slashIntermediate s idx v).balances = s.balances ∧
    (slashIntermediate s idx v).validators.length = s.validators.length ∧
    (slashIntermediate s idx v).validators.getD idx defaultValidator =
      { v with slashed := true,
               withdrawable_epoch := max v.withdrawable_epoch
                 (get_current_epoch s + EPOCHS_PER_SLASHINGS_VECTOR) } ∧
    (slashIntermediate s idx v).slashings =
      s.slashings.set (get_current_epoch s % EPOCHS_PER_SLASHINGS_VECTOR)
        ((s.slashings.getD (get_current_epoch s % EPOCHS_PER_SLASHINGS_VECTOR) 0 +
          v.effective_balance) % 2 ^ 64) := by
  obtain ⟨h1, h2, h3, h4⟩ := initiate_validator_exit_proj s idx
  unfold slashIntermediate
  rw [decrease_balance_eq_self]
  refine ⟨h1, h2, ?_, ?_, ?_⟩
  · show ((initiate_validator_exit s idx).validators.set idx _).length = _
    rw [List.length_set]
    exact h4
  · show ((initiate_validator_exit s idx).validators.set idx _).getD idx defaultValidator = _
    exact getD_set_self _ _ _ _ (by omega)
  · show (initiate_validator_exit s idx).slashings.set _ _ = _
    rw [h3]

/-- C2: for a successful `slash_validator(idx, wbo)` on the validator of
effective balance `B` at the in-range index `idx`: the validator ends with its
slashed flag set, its withdrawable epoch is at least
`current_epoch + EPOCHS_PER_SLASHINGS_VECTOR`, the slashings-ring entry of the
current epoch grows by exactly `B`, and the sum of the two balance credits —
proposer reward plus whistleblower remainder, visible as the growth of the
total balance since the slashing debit is discarded by `decrease_balance` —
equals exactly `B / WHISTLEBLOWER_REWARD_QUOTIENT`; an out-of-range index
fails with the ValidatorNotFound error.  The arithmetic hypotheses keep the
`u64` additions below `2 ^ 64`; the length hypotheses are the equal-length
registry invariants of the data model (spec section 3). -/
theorem c2_slash_validator_spec (f : ExternalFns) (s : BeaconState) (fuel idx : Nat)
    (wbo : Option Nat) (s' : BeaconState)
    (hf : ExternalFns.Good f)
    (hlen : s.balances.length = s.validators.length)
    (hwb : ∀ w, wbo = some w → w < s.balances.length)
    (hsum : s.balances.sum +
      (s.validators.getD idx defaultValidator).effective_balance
        / WHISTLEBLOWER_REWARD_QUOTIENT < 2 ^ 64)
    (hring : s.slashings.getD (get_current_epoch s % EPOCHS_PER_SLASHINGS_VECTOR) 0 +
      (s.validators.getD idx defaultValidator).effective_balance < 2 ^ 64)
    (hringlen : get_current_epoch s % EPOCHS_PER_SLASHINGS_VECTOR < s.slashings.length) :
    (s.validators.length ≤ idx →
      slash_validator f s fuel idx wbo = some (.error .ValidatorNotFound)) ∧
    (slash_validator f s fuel idx wbo = some (.ok s') →
      ((s'.validators.getD idx defaultValidator).slashed = true ∧
       get_current_epoch s + EPOCHS_PER_SLASHINGS_VECTOR ≤
         (s'.validators.getD idx defaultValidator).withdrawable_epoch ∧
       s'.slashings.getD (get_current_epoch s % EPOCHS_PER_SLASHINGS_VECTOR) 0 =
         s.slashings.getD (get_current_epoch s % EPOCHS_PER_SLASHINGS_VECTOR) 0 +
           (s.validators.getD idx defaultValidator).effective_balance ∧
       s'.balances.sum = s.balances.sum +
         (s.validators.getD idx defaultValidator).effective_balance
           / WHISTLEBLOWER_REWARD_QUOTIENT)) := by
  obtain ⟨hs1slot, hs1bal, hs1slash, hs1len⟩ := initiate_validator_exit_proj s idx
  constructor
  · intro hout
    unfold slash_validator
    have hnone : (initiate_validator_exit s idx).validators.get? idx = none := by
      rw [List.get?_eq_none]
      omega
    simp only [hnone]
  · intro h
    unfold slash_validator at h
    split at h
    · simp at h
    · rename_i v hv
      have hidx : idx < s.validators.length := by
        by_contra hc
        rw [List.get?_eq_none.mpr (by omega)] at hv
        cases hv
      have hvd : v = (initiate_validator_exit s idx).validators.getD idx defaultValidator := by
        rw [List.getD_eq_getD_get?, hv]
        rfl
      have hveb : v.effective_balance =
          (s.validators.getD idx defaultValidator).effective_balance := by
        rw [hvd, initiate_validator_exit_effective_balance]
      obtain ⟨hSslot, hSbal, hSlen, hSgetD, hSslash⟩ := slashIntermediate_spec s idx v hidx
      rw [← hveb] at hsum hring
      split at h
      · cases h
      · simp at h
      · rename_i p hp
        have hplt : p < s.validators.length := by
          have hlt := get_beacon_proposer_index_lt f _ fuel p hf hp
          omega
        rw [← Except.ok.inj (Option.some.inj h)]
        have hprle := proposer_reward_le (v.effective_balance / WHISTLEBLOWER_REWARD_QUOTIENT)
        refine ⟨?_, ?_, ?_, ?_⟩
        · rw [(increase_balance_proj _ _ _).2.1, (increase_balance_proj _ _ _).2.1, hSgetD]
        · rw [(increase_balance_proj _ _ _).2.1, (increase_balance_proj _ _ _).2.1, hSgetD]
          exact Nat.le_max_right _ _
        · rw [(increase_balance_proj _ _ _).2.2.1, (increase_balance_proj _ _ _).2.2.1,
            hSslash, getD_set_self _ _ _ _ hringlen, ← hveb, Nat.mod_eq_of_lt hring]
        · have hple : p < (slashIntermediate s idx v).balances.length := by
            rw [hSbal]
            omega
          have hgle := getD_le_sum (slashIntermediate s idx v).balances p
          have h5sum : (increase_balance (slashIntermediate s idx v) p
              (v.effective_balance / WHISTLEBLOWER_REWARD_QUOTIENT
                * PROPOSER_WEIGHT / WEIGHT_DENOMINATOR)).balances.sum =
              s.balances.sum + v.effective_balance / WHISTLEBLOWER_REWARD_QUOTIENT
                * PROPOSER_WEIGHT / WEIGHT_DENOMINATOR := by
            rw [increase_balance_sum _ _ _ hple (by rw [hSbal] at hgle ⊢; omega), hSbal]
          have hwble : wbo.getD p < (increase_balance (slashIntermediate s idx v) p
              (v.effective_balance / WHISTLEBLOWER_REWARD_QUOTIENT
                * PROPOSER_WEIGHT / WEIGHT_DENOMINATOR)).balances.length := by
            rw [(increase_balance_proj _ _ _).2.2.2, hSbal]
            cases hwob : wbo with
            | none => simpa using (by omega : p < s.balances.length)
            | some w => simpa using hwb w hwob
          have hgle2 := getD_le_sum (increase_balance (slashIntermediate s idx v) p
              (v.effective_balance / WHISTLEBLOWER_REWARD_QUOTIENT
                * PROPOSER_WEIGHT / WEIGHT_DENOMINATOR)).balances (wbo.getD p)
          rw [increase_balance_sum _ _ _ hwble (by rw [h5sum] at hgle2; omega), h5sum,
            ← hveb]
          omega

/-- Witness for C2: slashing validator 0 (effective balance 1024) of
`c2State` at epoch 10 marks it slashed with withdrawable epoch 8202, adds
1024 to ring slot 10, and credits 1024 / 512 = 2 Gwei in total; index 5 is
rejected with ValidatorNotFound. -/
theorem c2_witness :
    ((c2Result.validators.getD 0 defaultValidator).slashed = true ∧
     get_current_epoch c2State + EPOCHS_PER_SLASHINGS_VECTOR ≤
       (c2Result.validators.getD 0 defaultValidator).withdrawable_epoch ∧
     c2Result.slashings.getD (get_current_epoch c2State % EPOCHS_PER_SLASHINGS_VECTOR) 0 =
       c2State.slashings.getD (get_current_epoch c2State % EPOCHS_PER_SLASHINGS_VECTOR) 0 +
         (c2State.validators.getD 0 defaultValidator).effective_balance ∧
     c2Result.balances.sum = c2State.balances.sum +
       (c2State.validators.getD 0 defaultValidator).effective_balance
         / WHISTLEBLOWER_REWARD_QUOTIENT) ∧
    slash_validator sampleFns c2State 1 5 none = some (.error .ValidatorNotFound) := by
  have hgood : ExternalFns.Good sampleFns := by
    constructor
    · intro i n seed h
      simpa [sampleFns] using Nat.mod_lt i h
    · intro seed q r
      simp [sampleFns, MAX_RANDOM_BYTE]
  constructor
  · exact (c2_slash_validator_spec sampleFns c2State 1 0 none c2Result hgood (by decide)
      (fun w hw => by cases hw) (by decide) (by decide) (by decide)).2 (by decide)
  · exact (c2_slash_validator_spec sampleFns c2State 1 5 none c2Result hgood (by decide)
      (fun w hw => by cases hw) (by decide) (by decide) (by decide)).1 (by decide)

theorem aee_le_base (s : BeaconState) :
    compute_activation_exit_epoch (get_current_epoch s) ≤ exit_queue_epoch_base s := by
  unfold exit_queue_epoch_base
  exact mem_le_foldl_max _ _ _ (List.mem_append_right _ (List.mem_singleton.mpr rfl))

theorem finite_exit_le_base (s : BeaconState) (v : Validator) (hv : v ∈ s.validators)
    (hne : v.exit_epoch ≠ FAR_FUTURE_EPOCH) : v.exit_epoch ≤ exit_queue_epoch_base s := by
  unfold exit_queue_epoch_base
  refine mem_le_foldl_max _ _ _ (List.mem_append_left _ ?_)
  exact List.mem_filterMap.mpr ⟨v, hv, by rw [if_pos hne]⟩

theorem base_lt_of_bounds (s : BeaconState) (c : Nat)
    (haee : compute_activation_exit_epoch (get_current_epoch s) < c)
    (hall : ∀ v ∈ s.validators, v.exit_epoch ≠ FAR_FUTURE_EPOCH → v.exit_epoch < c)
    (h0 : 0 < c) : exit_queue_epoch_base s < c := by
  unfold exit_queue_epoch_base
  refine foldl_max_lt _ _ _ h0 ?_
  intro x hx
  rcases List.mem_append.mp hx with hx | hx
  · obtain ⟨v, hv, hfv⟩ := List.mem_filterMap.mp hx
    by_cases hne : v.exit_epoch ≠ FAR_FUTURE_EPOCH
    · rw [if_pos hne] at hfv
      rw [← Option.some.inj hfv]
      exact hall v hv hne
    · rw [if_neg hne] at hfv
      cases hfv
  · rw [List.mem_singleton.mp hx]
    exact haee

theorem base_le_final (s : BeaconState) :
    exit_queue_epoch_base s ≤ exit_queue_epoch_final s := by
  unfold exit_queue_epoch_final
  split <;> omega

theorem final_le_base_succ (s : BeaconState) :
    exit_queue_epoch_final s ≤ exit_queue_epoch_base s + 1 := by
  unfold exit_queue_epoch_final
  split <;> omega

theorem exit_queue_churn_eq_exitCount (s : BeaconState) :
    exit_queue_churn s = exitCount s (exit_queue_epoch_base s) := by
  unfold exit_queue_churn exitCount
  rw [countP_eq_card_filter_range s.validators defaultValidator]
  have hcg : ((Finset.range s.validators.length).filter
        (fun i => ((s.validators.getD i defaultValidator).exit_epoch
          == exit_queue_epoch_base s) = true)) =
      ((Finset.range s.validators.length).filter
        (fun i => (s.validators.getD i defaultValidator).exit_epoch
          = exit_queue_epoch_base s)) :=
    Finset.filter_congr (fun i _ => by simp)
  rw [hcg]

theorem active_indices_congr (s0 s : BeaconState) (e : Nat)
    (hlen : s.validators.length = s0.validators.length)
    (hact : ∀ i, i < s0.validators.length →
      is_active_validator (s.validators.getD i defaultValidator) e =
        is_active_validator (s0.validators.getD i defaultValidator) e) :
    get_active_validator_indices s e = get_active_validator_indices s0 e := by
  unfold get_active_validator_indices
  rw [hlen]
  exact List.filter_congr (fun i hi => by rw [hact i (List.mem_range.mp hi)])

theorem churn_limit_congr (s0 s : BeaconState)
    (hslot : s.slot = s0.slot)
    (hlen : s.validators.length = s0.validators.length)
    (hact : ∀ i, i < s0.validators.length →
      is_active_validator (s.validators.getD i defaultValidator) (get_current_epoch s0) =
        is_active_validator (s0.validators.getD i defaultValidator) (get_current_epoch s0)) :
    get_validator_churn_limit s = get_validator_churn_limit s0 := by
  unfold get_validator_churn_limit
  have hcur : get_current_epoch s = get_current_epoch s0 := by
    unfold get_current_epoch compute_epoch_at_slot
    rw [hslot]
  rw [hcur, active_indices_congr s0 s _ hlen hact]

theorem exitCount_set (s : BeaconState) (i : Nat) (v' : Validator)
    (hi : i < s.validators.length) (g : Nat) :
    exitCount { s with validators := s.validators.set i v' } g +
      (if (s.validators.getD i defaultValidator).exit_epoch = g then 1 else 0) =
    exitCount s g + (if v'.exit_epoch = g then 1 else 0) := by
  unfold exitCount
  simp only [List.length_set]
  have hupd := card_filter_update s.validators.length i
    (fun j => ((s.validators.set i v').getD j defaultValidator).exit_epoch = g)
    (fun j => (s.validators.getD j defaultValidator).exit_epoch = g) hi
    (fun j hj => by
      show ((s.validators.set i v').getD j defaultValidator).exit_epoch = g ↔
        (s.validators.getD j defaultValidator).exit_epoch = g
      rw [getD_set_ne _ _ _ _ _ (fun h => hj h.symm)])
  simp only [getD_set_self _ _ _ _ hi] at hupd
  omega

theorem activation_exit_lt_far_future (s : BeaconState) (h : s.slot < 2 ^ 64) :
    compute_activation_exit_epoch (get_current_epoch s) + 1 < FAR_FUTURE_EPOCH := by
  unfold compute_activation_exit_epoch get_current_epoch compute_epoch_at_slot
    MAX_SEED_LOOKAHEAD FAR_FUTURE_EPOCH SLOTS_PER_EPOCH
  have hd : s.slot / 32 ≤ (2 ^ 64 - 1) / 32 := Nat.div_le_div_right (by omega)
  have hlit : (2 ^ 64 - 1) / 32 = 576460752303423487 := by norm_num
  omega

theorem exitInv_step (s0 s : BeaconState) (i : Nat)
    (hslot : s0.slot < 2 ^ 64) (hinv : ExitInv s0 s) :
    ExitInv s0 (initiate_validator_exit s i) := by
  obtain ⟨h1, h2, h3, h4, h5, h6⟩ := hinv
  by_cases hact : i < s.validators.length ∧
      (s.validators.getD i defaultValidator).exit_epoch = FAR_FUTURE_EPOCH
  case neg =>
    rw [initiate_validator_exit_noop s i (by
      by_cases hlt : i < s.validators.length
      · exact Or.inr ⟨hlt, fun hFF => hact ⟨hlt, hFF⟩⟩
      · exact Or.inl (by omega))]
    exact ⟨h1, h2, h3, h4, h5, h6⟩
  case pos =>
    obtain ⟨hilen, hiFF⟩ := hact
    have hcur : get_current_epoch s = get_current_epoch s0 := by
      unfold get_current_epoch compute_epoch_at_slot
      rw [h1]
    have haeeFF : compute_activation_exit_epoch (get_current_epoch s) + 1 <
        FAR_FUTURE_EPOCH := by
      rw [hcur]
      exact activation_exit_lt_far_future s0 hslot
    have hbase := aee_le_base s
    have hfinal := base_le_final s
    have hfinal1 := final_le_base_succ s
    have hbaseFF : exit_queue_epoch_base s < FAR_FUTURE_EPOCH := by
      refine base_lt_of_bounds s _ (by omega) ?_ (by unfold FAR_FUTURE_EPOCH; omega)
      intro v hv hne
      exact lt_of_le_of_ne (h3 v hv) hne
    have hq_le_FF : exit_queue_epoch_final s ≤ FAR_FUTURE_EPOCH := by omega
    have hcur_lt_q : get_current_epoch s0 < exit_queue_epoch_final s := by
      have : get_current_epoch s + 1 ≤ compute_activation_exit_epoch (get_current_epoch s) := by
        unfold compute_activation_exit_epoch
        omega
      rw [← hcur]
      omega
    have hcur_lt_FF : get_current_epoch s0 < FAR_FUTURE_EPOCH := by
      rw [← hcur]
      omega
    rw [initiate_validator_exit_act s i hilen hiFF]
    have hlimit : get_validator_churn_limit s = get_validator_churn_limit s0 :=
      churn_limit_congr s0 s h1 h2 h4
    have hset_len : ((s.validators.set i (exitedValidator s i)).length)
        = s.validators.length := List.length_set _ _ _
    have hcount := fun g => exitCount_set s i (exitedValidator s i) hilen g
    have hexited_exit : (exitedValidator s i).exit_epoch = exit_queue_epoch_final s := rfl
    refine ⟨h1, by simpa using h2, ?_, ?_, ?_, ?_⟩
    · intro v hv
      rcases List.mem_or_eq_of_mem_set hv with hv | hv
      · exact h3 v hv
      · rw [hv, hexited_exit]
        exact hq_le_FF
    · intro j hj
      by_cases hij : i = j
      · subst hij
        show is_active_validator ((s.validators.set i (exitedValidator s i)).getD i
            defaultValidator) (get_current_epoch s0) = _
        rw [getD_set_self _ _ _ _ hilen]
        rw [← h4 i hj]
        unfold is_active_validator exitedValidator
        simp only [hiFF, hexited_exit]
        rw [decide_eq_true hcur_lt_q, decide_eq_true hcur_lt_FF]
      · show is_active_validator ((s.validators.set i (exitedValidator s i)).getD j
            defaultValidator) (get_current_epoch s0) = _
        rw [getD_set_ne _ _ _ _ _ hij]
        exact h4 j hj
    · intro j hj hjFF
      by_cases hij : i = j
      · subst hij
        exact absurd (h5 i hj hjFF ▸ hjFF) (fun hc => hc hiFF)
      · show ((s.validators.set i (exitedValidator s i)).getD j
            defaultValidator).exit_epoch = _
        rw [getD_set_ne _ _ _ _ _ hij]
        exact h5 j hj hjFF
    · intro g hg
      have hcg := hcount g
      rw [hexited_exit] at hcg
      by_cases hqg : exit_queue_epoch_final s = g
      · rw [if_pos hqg, if_neg (fun hc : (s.validators.getD i defaultValidator).exit_epoch = g
          => hg (by rw [← hc, hiFF]))] at hcg
        have hL4 : MIN_PER_EPOCH_CHURN_LIMIT ≤ get_validator_churn_limit s0 :=
          Nat.le_max_left _ _
        have hL1 : 1 ≤ get_validator_churn_limit s0 := by
          unfold MIN_PER_EPOCH_CHURN_LIMIT at hL4
          omega
        unfold exit_queue_epoch_final at hqg
        split at hqg
        · -- the queue was bumped: nobody holds the bumped epoch yet
          rename_i hbump
          have hzero : exitCount s g = 0 := by
            unfold exitCount
            rw [Finset.card_eq_zero, Finset.filter_eq_empty_iff]
            intro j hj
            intro hcj
            have hmem := getD_mem s.validators j defaultValidator (Finset.mem_range.mp hj)
            have hle := h3 _ hmem
            have hne : (s.validators.getD j defaultValidator).exit_epoch
                ≠ FAR_FUTURE_EPOCH := by
              rw [hcj, ← hqg]
              omega
            have := finite_exit_le_base s _ hmem hne
            omega
          have hmax := Nat.le_max_right (exitCount s0 g) (get_validator_churn_limit s0)
          omega
        · -- no bump: the count at the base epoch was still below the limit
          rename_i hbump
          rw [exit_queue_churn_eq_exitCount, hlimit] at hbump
          rw [hqg] at hbump
          have hmax := Nat.le_max_right (exitCount s0 g) (get_validator_churn_limit s0)
          omega
      · rw [if_neg hqg, if_neg (fun hc : (s.validators.getD i defaultValidator).exit_epoch = g
          => hg (by rw [← hc, hiFF]))] at hcg
        have := h6 g hg
        omega

theorem exitInv_fold (s0 : BeaconState) (l : List Nat)
    (hslot : s0.slot < 2 ^ 64)
    (hexit : ∀ v ∈ s0.validators, v.exit_epoch ≤ FAR_FUTURE_EPOCH) :
    ExitInv s0 (l.foldl initiate_validator_exit s0) := by
  have haux : ∀ (l : List Nat) (s : BeaconState), ExitInv s0 s →
      ExitInv s0 (l.foldl initiate_validator_exit s) := by
    intro l
    induction l with
    | nil => intro s hs; exact hs
    | cons a t ih =>
      intro s hs
      exact ih _ (exitInv_step s0 s a hslot hs)
  exact haux l s0 ⟨rfl, rfl, hexit, fun _ _ => rfl, fun _ _ _ => rfl,
    fun g _ => Nat.le_max_left _ _⟩

theorem exitCount_split (s0 s : BeaconState) (hinv : ExitInv s0 s) (g : Nat)
    (hg : g ≠ FAR_FUTURE_EPOCH) :
    exitCount s g = exitCount s0 g + assignedExitCount s0 s g := by
  obtain ⟨h1, h2, h3, h4, h5, h6⟩ := hinv
  unfold exitCount assignedExitCount
  rw [h2]
  have hsplit : (Finset.range s0.validators.length).filter
        (fun j => (s.validators.getD j defaultValidator).exit_epoch = g) =
      ((Finset.range s0.validators.length).filter
        (fun j => (s0.validators.getD j defaultValidator).exit_epoch = g)) ∪
      ((Finset.range s0.validators.length).filter
        (fun j => (s0.validators.getD j defaultValidator).exit_epoch = FAR_FUTURE_EPOCH ∧
          (s.validators.getD j defaultValidator).exit_epoch = g)) := by
    ext j
    simp only [Finset.mem_union, Finset.mem_filter, Finset.mem_range]
    constructor
    · rintro ⟨hj, hcj⟩
      by_cases hFF : (s0.validators.getD j defaultValidator).exit_epoch = FAR_FUTURE_EPOCH
      · exact Or.inr ⟨hj, hFF, hcj⟩
      · exact Or.inl ⟨hj, by rw [← h5 j hj hFF]; exact hcj⟩
    · rintro (⟨hj, hcj⟩ | ⟨hj, _, hcj⟩)
      · refine ⟨hj, ?_⟩
        rw [h5 j hj (by rw [hcj]; exact hg)]
        exact hcj
      · exact ⟨hj, hcj⟩
  rw [hsplit, Finset.card_union_of_disjoint]
  rw [Finset.disjoint_filter]
  intro j _ hcj hc
  rw [hc.1] at hcj
  exact hg hcj.symm

/-- C4: across any burst of `initiate_validator_exit` calls within one epoch
(the state slot never changes), the number of distinct validators newly
assigned any given exit-queue epoch `g` never exceeds the validator churn
limit of the starting state — in particular the single tipping validator the
claim sets aside also stays within the bound.  The hypotheses keep the `u64`
epoch values in range and exclude the sentinel `FAR_FUTURE_EPOCH`, which is
never an assigned queue epoch. -/
theorem c4_exit_churn_bound (s0 : BeaconState) (l : List Nat) (g : Nat)
    (hslot : s0.slot < 2 ^ 64)
    (hexit : ∀ v ∈ s0.validators, v.exit_epoch ≤ FAR_FUTURE_EPOCH)
    (hg : g ≠ FAR_FUTURE_EPOCH) :
    assignedExitCount s0 (l.foldl initiate_validator_exit s0) g ≤
      get_validator_churn_limit s0 := by
  have hinv := exitInv_fold s0 l hslot hexit
  have hsplit := exitCount_split s0 _ hinv g hg
  have hb := hinv.2.2.2.2.2 g hg
  omega

/-- Witness for C4: five validators, churn limit 4, all five asked to exit in
one epoch; exactly 4 are assigned epoch 15 (within the limit) and the fifth
spills into epoch 16. -/
theorem c4_witness :
    assignedExitCount c4State (List.foldl initiate_validator_exit c4State [0, 1, 2, 3, 4]) 15
      ≤ get_validator_churn_limit c4State ∧
    assignedExitCount c4State (List.foldl initiate_validator_exit c4State [0, 1, 2, 3, 4]) 16
      ≤ get_validator_churn_limit c4State := by
  constructor
  · exact c4_exit_churn_bound c4State [0, 1, 2, 3, 4] 15 (by decide) (by decide) (by decide)
  · exact c4_exit_churn_bound c4State [0, 1, 2, 3, 4] 16 (by decide) (by decide) (by decide)
